import Mathlib

/-!
Shallow embedding of the dialogue-orchestration layer of the assistant
(`src/main.py` and `src/engine/presenter.py`): text normalization, intent
classification, the pending-action protocol and the response contract.
Python strings are modelled as Lean `String` (a list of characters);
`str.lower` is modelled character-wise, and the handful of regular
expressions used by the source (`\b`-bounded literals, `\s+` separators,
markdown links, URLs, hex tokens) are modelled by dedicated scanners that
reproduce the left-to-right, leftmost-match, non-overlapping semantics of
`re.search` / `re.sub` for those concrete patterns.
-/

set_option maxRecDepth 100000

namespace Cavista

/-- Python whitespace, as used by `str.strip()`, `str.split()` and `\s`. -/
def isWsChar (c : Char) : Bool :=
  c = ' ' || c = '\t' || c = '\n' || c = '\r' || c = '\x0b' || c = '\x0c'

/-- Word characters for the regex `\b` boundary (`[A-Za-z0-9_]`). -/
def isWordChar (c : Char) : Bool :=
  ('a' ≤ c && c ≤ 'z') || ('A' ≤ c && c ≤ 'Z') || ('0' ≤ c && c ≤ '9') || c = '_'

/-- Character-wise lowering, the embedding of `str.lower()`. -/
def lowerL (l : List Char) : List Char := l.map Char.toLower

def pyLower (s : String) : String := ⟨lowerL s.data⟩

/-- Does `sub` occur as a prefix of `s`? -/
def startsWithL : List Char → List Char → Bool
  | _, [] => true
  | [], _ :: _ => false
  | a :: as, b :: bs => a = b && startsWithL as bs

/-- Substring occurrence, the embedding of Python `sub in hay`. -/
def containsL : List Char → List Char → Bool
  | [], sub => sub.isEmpty
  | c :: cs, sub => startsWithL (c :: cs) sub || containsL cs sub

def containsSub (hay sub : String) : Bool := containsL hay.data sub.data

def startsWith (s p : String) : Bool := startsWithL s.data p.data

def endsWith (s p : String) : Bool := startsWithL s.data.reverse p.data.reverse

/-- Remove trailing characters satisfying `p`. -/
def stripTrailL (p : Char → Bool) : List Char → List Char
  | [] => []
  | c :: cs =>
    let r := stripTrailL p cs
    if r.isEmpty && p c then [] else c :: r

/-- Remove leading and trailing characters satisfying `p`
(Python `str.strip` with a character set). -/
def stripSetL (p : Char → Bool) (l : List Char) : List Char :=
  stripTrailL p (l.dropWhile p)

/-- Embedding of `str.strip()` (default whitespace). -/
def pyStrip (s : String) : String := ⟨stripSetL isWsChar s.data⟩

/-- Characters stripped by `strip(" ,.-")` in `sanitize_for_tts`. -/
def isTtsStripChar (c : Char) : Bool := c = ' ' || c = ',' || c = '.' || c = '-'

/-- Embedding of `str.split()`: split on whitespace runs, no empty parts. -/
def splitWsAux : List Char → List Char → List (List Char)
  | acc, [] => if acc.isEmpty then [] else [acc.reverse]
  | acc, c :: cs =>
    if isWsChar c then
      (if acc.isEmpty then splitWsAux [] cs else acc.reverse :: splitWsAux [] cs)
    else splitWsAux (c :: acc) cs

def splitWsStr (s : String) : List String :=
  (splitWsAux [] s.data).map (fun l => ⟨l⟩)

/-- Embedding of `re.sub(r"\s+", " ", ·)`: collapse whitespace runs to one
space.  The boolean state records whether the previous character was
whitespace. -/
def collapseWsAux : Bool → List Char → List Char
  | _, [] => []
  | prevWs, c :: cs =>
    if isWsChar c then
      (if prevWs then collapseWsAux true cs else ' ' :: collapseWsAux true cs)
    else c :: collapseWsAux false cs

def collapseWs (l : List Char) : List Char := collapseWsAux false l

/-- Last line of a string (`str.splitlines()[-1]` for a string with no
trailing newline): the characters after the last `'\n'`. -/
def lastLineL (l : List Char) : List Char :=
  (l.reverse.takeWhile (fun c => c ≠ '\n')).reverse

/-- Join string pieces with a separator list. -/
def joinL (sep : List Char) : List (List Char) → List Char
  | [] => []
  | [x] => x
  | x :: y :: rest => x ++ sep ++ joinL sep (y :: rest)

def joinLines (l : List String) : String := ⟨joinL ['\n'] (l.map String.data)⟩

/-- Case-insensitive literal match of the (lowercase) pattern `pat` against a
prefix of `s`; returns the remainder on success.  Models a literal regex
fragment under `re.IGNORECASE` (all patterns in the source are lowercase). -/
def eatLitCI : List Char → List Char → Option (List Char)
  | s, [] => some s
  | [], _ :: _ => none
  | c :: cs, p :: ps => if Char.toLower c = p then eatLitCI cs ps else none

/-- Case-sensitive literal match (for patterns compiled without
`re.IGNORECASE`). -/
def eatLit : List Char → List Char → Option (List Char)
  | s, [] => some s
  | [], _ :: _ => none
  | c :: cs, p :: ps => if c = p then eatLit cs ps else none

/-- One-or-more whitespace (`\s+`), consumed greedily. -/
def eatWs1 : List Char → Option (List Char)
  | [] => none
  | c :: cs => if isWsChar c then some (cs.dropWhile isWsChar) else none

/-- Match a sequence of literal words separated by `\s+` (the shape of the
research-trigger patterns such as `\blook\s+up\b`). -/
def eatPhraseWs : List (List Char) → List Char → Option (List Char)
  | [], s => some s
  | [w], s => eatLitCI s w
  | w :: w2 :: ws, s =>
    match eatLitCI s w with
    | none => none
    | some r =>
      match eatWs1 r with
      | none => none
      | some r2 => eatPhraseWs (w2 :: ws) r2

/-- The `\b` test on the left of a match: start of string or a non-word
previous character. -/
def boundaryBefore : Option Char → Bool
  | none => true
  | some c => !isWordChar c

/-- The `\b` test on the right of a match (all patterns end in a word
character): end of string or a non-word next character. -/
def boundaryAfterL : List Char → Bool
  | [] => true
  | c :: _ => !isWordChar c

def phraseHitAt (ws : List (List Char)) (s : List Char) : Bool :=
  match eatPhraseWs ws s with
  | some r => boundaryAfterL r
  | none => false

/-- Embedding of `re.search` for a `\b…\b`-bounded phrase: scan positions
left to right, carrying the previous character for the boundary test. -/
def searchPhraseAux (ws : List (List Char)) : Option Char → List Char → Bool
  | prev, [] => boundaryBefore prev && phraseHitAt ws []
  | prev, c :: cs =>
    (boundaryBefore prev && phraseHitAt ws (c :: cs)) || searchPhraseAux ws (some c) cs

def searchBoundedStr (s pat : String) : Bool := searchPhraseAux [pat.data] none s.data

def searchPhraseStr (s : String) (pats : List String) : Bool :=
  searchPhraseAux (pats.map String.data) none s.data

/-- Embedding of `re.sub(r"\b<lit>\b", repl, s, flags=IGNORECASE)`: replace
every non-overlapping bounded occurrence, scanning left to right.  The fuel
argument (instantiated to `length + 1`) makes the recursion structural;
every step consumes at least one character, so the fuel never runs out. -/
def subBoundedF (pat repl : List Char) : Nat → Option Char → List Char → List Char
  | 0, _, s => s
  | _ + 1, _, [] => []
  | fuel + 1, prev, c :: cs =>
    match (if boundaryBefore prev then eatLitCI (c :: cs) pat else none) with
    | some rest =>
      if boundaryAfterL rest then
        repl ++ subBoundedF pat repl fuel ((List.take pat.length (c :: cs)).getLast?) rest
      else c :: subBoundedF pat repl fuel (some c) cs
    | none => c :: subBoundedF pat repl fuel (some c) cs

def subBoundedStr (s pat repl : String) : String :=
  ⟨subBoundedF pat.data repl.data (s.data.length + 1) none s.data⟩

/-- Numeric value of a digit run (the `int(...)` of a regex group). -/
def digitsVal (l : List Char) : Nat :=
  l.foldl (fun acc c => acc * 10 + (c.toNat - 48)) 0

/-- Try to match `option\s*(\d+)\b` at the current position; the leading
`\b` is checked by the caller. -/
def optNAt (s : List Char) : Option Nat :=
  match eatLitCI s "option".data with
  | some r1 =>
    let r2 := r1.dropWhile isWsChar
    let ds := r2.takeWhile Char.isDigit
    let r3 := r2.dropWhile Char.isDigit
    if !ds.isEmpty && boundaryAfterL r3 then some (digitsVal ds) else none
  | none => none

/-- Embedding of `re.search(r"\boption\s*(\d+)\b", text)`, returning the
numeric group of the leftmost match. -/
def findOptionN : Option Char → List Char → Option Nat
  | prev, [] =>
    if boundaryBefore prev then optNAt [] else none
  | prev, c :: cs =>
    match (if boundaryBefore prev then optNAt (c :: cs) else none) with
    | some n => some n
    | none => findOptionN (some c) cs

/-! ## Sentence splitting and the Response Builder (`src/engine/presenter.py`) -/

/-- Sentence-break characters (`[.!?]` in `_limit_sentences`). -/
def brkChar (c : Char) : Bool := c = '.' || c = '!' || c = '?'

def consHead (c : Char) : List (List Char) → List (List Char)
  | [] => [[c]]
  | h :: t => (c :: h) :: t

/-- Embedding of `re.split(r"(?<=[.!?])\s+", ·)` on a whitespace-collapsed
string: split at each space preceded by a sentence-break character.  The
first argument is the previous character (`'A'` initially: position 0 has
no preceding break). -/
def ssplitL : Char → List Char → List (List Char)
  | _, [] => [[]]
  | p, c :: cs =>
    if brkChar p && c = ' ' then [] :: ssplitL c cs else consHead c (ssplitL c cs)

/-- Embedding of `_limit_sentences`: collapse whitespace, strip, keep the
first `maxS` sentence parts, re-join with single spaces, strip. -/
def limit_sentences (text : String) (maxS : Nat) : String :=
  let clean := pyStrip ⟨collapseWs text.data⟩
  if clean = "" then ""
  else pyStrip ⟨joinL [' '] ((ssplitL 'A' clean.data).take maxS)⟩

/-- Embedding of `_clean_tone`: strip, remove the four banned-tone
`\b`-bounded patterns (case-insensitively), collapse whitespace, strip. -/
def clean_tone (text : String) : String :=
  let c1 := pyStrip text
  let c2 := subBoundedStr c1 "human" ""
  let c3 := subBoundedStr c2 "as jarvis" ""
  let c4 := subBoundedStr c3 "doctor diagnosis" ""
  let c5 := subBoundedStr c4 "excellent task" ""
  pyStrip ⟨collapseWs c5.data⟩

def sentence_limit_for_verbosity (level : String) : Nat :=
  if level = "detailed" then 8 else if level = "standard" then 5 else 3

/-- Try to match the markdown-link pattern
`\[([^\]]+)\]\((https?://[^)]+)\)` at the current position, returning the
link label (group 1, the replacement text) and the remainder. -/
def mdLinkAt (s : List Char) : Option (List Char × List Char) :=
  match s with
  | '[' :: t =>
    let lab := t.takeWhile (fun c => c ≠ ']')
    let t2 := t.dropWhile (fun c => c ≠ ']')
    if lab.isEmpty then none
    else
      match t2 with
      | ']' :: '(' :: t3 =>
        match eatLit t3 "http".data with
        | none => none
        | some r =>
          let r' := match r with
            | 's' :: rr => eatLit rr "://".data
            | _ => eatLit r "://".data
          match r' with
          | none => none
          | some r2 =>
            let u := r2.takeWhile (fun c => c ≠ ')')
            let r3 := r2.dropWhile (fun c => c ≠ ')')
            if u.isEmpty then none
            else
              match r3 with
              | ')' :: r4 => some (lab, r4)
              | _ => none
      | _ => none
  | _ => none

/-- Embedding of `re.sub` for the markdown-link pattern, replacing each
match by its label (fuel-structural, fuel = length + 1 suffices). -/
def mdSubF : Nat → List Char → List Char
  | 0, s => s
  | _ + 1, [] => []
  | fuel + 1, c :: cs =>
    match mdLinkAt (c :: cs) with
    | some (lab, rest) => lab ++ mdSubF fuel rest
    | none => c :: mdSubF fuel cs

/-- Try to match `https?://\S+` at the current position, returning the
remainder after the match. -/
def urlAt (s : List Char) : Option (List Char) :=
  match eatLit s "http".data with
  | none => none
  | some r =>
    let r' := match r with
      | 's' :: rr => eatLit rr "://".data
      | _ => eatLit r "://".data
    match r' with
    | none => none
    | some r2 =>
      let w := r2.takeWhile (fun c => !isWsChar c)
      if w.isEmpty then none else some (r2.dropWhile (fun c => !isWsChar c))

/-- Embedding of `re.sub(r"https?://\S+", "", ·)`. -/
def urlSubF : Nat → List Char → List Char
  | 0, s => s
  | _ + 1, [] => []
  | fuel + 1, c :: cs =>
    match urlAt (c :: cs) with
    | some rest => urlSubF fuel rest
    | none => c :: urlSubF fuel cs

/-- Hex characters of `[a-f0-9]` under `re.IGNORECASE`. -/
def isHexChar (c : Char) : Bool :=
  Char.isDigit c || ('a' ≤ c && c ≤ 'f') || ('A' ≤ c && c ≤ 'F')

/-- Try to match `\b[a-f0-9]{8,}\b` at the current position: a maximal hex
run of length at least 8 followed by a boundary.  Returns the remainder and
the last matched character (the previous character for the next position). -/
def hexAt (prev : Option Char) (s : List Char) : Option (List Char × Option Char) :=
  if boundaryBefore prev then
    let run := s.takeWhile isHexChar
    let rest := s.dropWhile isHexChar
    if 8 ≤ run.length && boundaryAfterL rest then some (rest, run.getLast?) else none
  else none

/-- Embedding of `re.sub(r"\b[a-f0-9]{8,}\b", "", ·, flags=IGNORECASE)`. -/
def hexSubF : Nat → Option Char → List Char → List Char
  | 0, _, s => s
  | _ + 1, _, [] => []
  | fuel + 1, prev, c :: cs =>
    match hexAt prev (c :: cs) with
    | some (rest, lastc) => hexSubF fuel lastc rest
    | none => c :: hexSubF fuel (some c) cs

/-- The bracket characters removed by `re.sub(r"[{}[\]]", "", ·)`. -/
def isBracketChar (c : Char) : Bool :=
  c = '[' || c = ']' || c = Char.ofNat 123 || c = Char.ofNat 125

def bracketRemove (l : List Char) : List Char := l.filter (fun c => !isBracketChar c)

def digitChar (n : Nat) : Char := Char.ofNat (48 + n)

/-- Decimal digits of a natural number, the embedding of Python `str(n)`
inside an f-string (fuel-structural; fuel = n + 1 suffices). -/
def natReprAux : Nat → Nat → List Char
  | 0, _ => []
  | fuel + 1, n =>
    if n < 10 then [digitChar n] else natReprAux fuel (n / 10) ++ [digitChar (n % 10)]

def natRepr (n : Nat) : String := ⟨natReprAux (n + 1) n⟩

/-- The value of `clean` in `sanitize_for_tts` just before the
evidence-count remark: strip, drop markdown links / URLs / hex tokens /
brackets, collapse whitespace, strip `" ,.-"`, cap at 2 sentences. -/
def tts_core (text : String) : String :=
  let c1 := pyStrip text
  let c2 : String := ⟨mdSubF (c1.data.length + 1) c1.data⟩
  let c3 : String := ⟨urlSubF (c2.data.length + 1) c2.data⟩
  let c4 : String := ⟨hexSubF (c3.data.length + 1) none c3.data⟩
  let c5 : String := ⟨bracketRemove c4.data⟩
  let c6 : String := ⟨stripSetL isTtsStripChar (collapseWs c5.data)⟩
  limit_sentences c6 2

/-- Embedding of `sanitize_for_tts`. -/
def sanitize_for_tts (text : String) (source_count : Nat) : String :=
  let clean := tts_core text
  let clean2 :=
    if 0 < source_count then
      if containsSub (pyLower clean) "source" then clean
      else clean ++ ". I attached " ++ natRepr source_count ++ " sources."
    else clean
  if clean2 = "" then "Done." else clean2

/-! ## Data model: response contract, sessions, pending actions -/

/-- An `{label, command}` pair (both a response `action` and a pending
option). -/
structure OptionItem where
  label : String
  command : String
deriving DecidableEq, Repr

structure SourceItem where
  title : String
  domain : String
  note : String
  url : Option String
deriving DecidableEq, Repr

structure EvidenceItem where
  etype : String
  title : String
  caption : String
  url : Option String
  path : Option String
  payload : Option String
  source : Option String
deriving DecidableEq, Repr

structure FileItem where
  id : String
  name : String
  ftype : String
deriving DecidableEq, Repr

structure SectionItem where
  title : String
  items : List String
deriving DecidableEq, Repr

/-- Values stored in the `meta.debug` map. -/
inductive DebugVal where
  | s (v : String)
  | n (v : Nat)
  | b (v : Bool)
  | sl (v : List String)
deriving DecidableEq, Repr

structure MetaInfo where
  intent : String
  verbosity : String
  sources : List SourceItem
  debug : List (String × DebugVal)
deriving DecidableEq, Repr

/-- The uniform response contract (`ResponseContract.to_dict()`). -/
structure Resp where
  say_text : String
  show_text : String
  evidence : List EvidenceItem
  files : List FileItem
  actions : List OptionItem
  meta : MetaInfo
deriving DecidableEq, Repr

structure PendingAction where
  ptype : String
  question : String
  options : List OptionItem
  default_command : String
deriving DecidableEq, Repr

structure ResearchObj where
  topic : String
  summary : String
  key_points : List String
  sources : List SourceItem
deriving DecidableEq, Repr

/-- The per-session workflow state (`WORKFLOW_SESSION_STATE` record). -/
structure WfSession where
  last_research : Option ResearchObj := none
  last_files : List FileItem := []
  last_intent : Option String := none
  artifacts : List FileItem := []
  pending : Option PendingAction := none
  context_topic : Option String := none
  context_country : Option String := none
  context_domain : Option String := none
deriving DecidableEq, Repr

/-- The slot-filling conversation state (`PROJECT_CONVERSATION_STATE`
record), as it stands after `_update_state_from_text` has run for the
current turn. -/
structure ConvState where
  company_name : String := ""
  domain : String := ""
  chosen_workflow_area : String := ""
  goal : String := ""
  compliance_level : String := ""
deriving DecidableEq, Repr

/-! ## `make_response` -/

def allowed_verbosity : List String := ["quick", "standard", "detailed"]

/-- Embedding of `get_verbosity`; the argument is the value of the
`ASSISTANT_VERBOSITY` environment variable (`none` when unset). -/
def get_verbosity (env : Option String) : String :=
  let raw := match env with
    | none => "quick"
    | some s => s
  let configured := pyLower (pyStrip raw)
  if allowed_verbosity.contains configured then configured else "quick"

/-- The keyword arguments of `make_response`, with the source's default
values. -/
structure MakeArgs where
  summary : String
  bullets : List String := []
  sections : List SectionItem := []
  sources : List SourceItem := []
  evidence : List EvidenceItem := []
  files : List FileItem := []
  actions : List OptionItem := []
  intent : String := "general"
  verbosity : Option String := none
  say_text : Option String := none
  question : Option String := none
  debug : List (String × DebugVal) := []
deriving Repr

def render_source_line (s : SourceItem) : String :=
  "- " ++ s.title ++ " â€” " ++ s.domain ++ " (used for: " ++ s.note ++ ")"

/-- The link evidence items appended for sources that carry a URL. -/
def source_link_evidence (sources : List SourceItem) : List EvidenceItem :=
  sources.filterMap (fun s =>
    match s.url with
    | some u => if u = "" then none else some ⟨"link", s.title, s.note, some u, none, none, some s.domain⟩
    | none => none)

/-- Body of `make_response` once the verbosity level `v` is resolved. -/
def make_response_v (v : String) (a : MakeArgs) : Resp :=
  let sentence_limit := sentence_limit_for_verbosity v
  let top_line := clean_tone (limit_sentences a.summary sentence_limit)
  let body0 : List String := if top_line ≠ "" then [top_line] else []
  let bullet_lines := (a.bullets.filter (fun b => b != "" && pyStrip b != "")).map clean_tone
  let bullet_cap := if v = "quick" then 2 else if v = "standard" then 4 else 5
  let body1 := body0 ++ (bullet_lines.take bullet_cap).map (fun b => "- " ++ b)
  let max_items := if v = "quick" then 2 else if v = "standard" then 3 else 5
  let body2 := a.sections.foldl (fun acc sec =>
      let title := pyStrip sec.title
      let items := (sec.items.map pyStrip).filter (fun i => i != "")
      if title = "" ∨ items = [] then acc
      else acc ++ ["", "**" ++ title ++ "**"] ++ (items.take max_items).map (fun i => "- " ++ i))
    body1
  let rendered := a.sources.map render_source_line
  let body3 :=
    if rendered.isEmpty then body2
    else body2 ++ ["", "**What I found**"] ++ rendered.take (if v = "quick" then 3 else 5)
           ++ ["- Source links are attached below."]
  let body4 := match a.question with
    | some q0 =>
      if q0 ≠ "" then
        let q1 := pyStrip q0
        let q := if q1 ≠ "" ∧ ¬(endsWith q1 "?" = true) then q1 ++ "?" else q1
        body3 ++ ["", q]
      else body3
    | none => body3
  let show_text := pyStrip (joinLines body4)
  let base := match a.say_text with
    | some st => if st ≠ "" then st else (if a.summary ≠ "" then a.summary else show_text)
    | none => if a.summary ≠ "" then a.summary else show_text
  let spoken := sanitize_for_tts base a.sources.length
  ⟨spoken, show_text, a.evidence ++ source_link_evidence a.sources, a.files, a.actions,
   ⟨a.intent, v, a.sources, a.debug⟩⟩

/-- Embedding of `make_response`: resolve the verbosity, then build. -/
def make_response (env : Option String) (a : MakeArgs) : Resp :=
  let v := match a.verbosity with
    | some s => if allowed_verbosity.contains s then s else get_verbosity env
    | none => get_verbosity env
  make_response_v v a

/-! ## Orchestration layer (`src/main.py`) -/

/-- The AI-context test guarding the `rise of i` correction. -/
def ai_context (lowered : String) : Bool :=
  ["research", "sources", "impact", "technology", "tech", "ai"].any
    (fun k => containsSub lowered k)

/-- Embedding of `_normalize_stt_text`.  Note that `lowered` is computed
once from the input, while the substitutions apply to the progressively
rewritten text, exactly as in the source. -/
def normalize_stt_text (text : String) : String × List String :=
  let lowered := pyLower text
  let step1 :=
    if containsSub lowered "contry" then
      (subBoundedStr text "contry" "country", ["contry->country"])
    else (text, [])
  let step2 :=
    if searchBoundedStr lowered "export play" then
      (subBoundedStr step1.1 "export play" "export plan", step1.2 ++ ["export play->export plan"])
    else step1
  if ai_context lowered && searchBoundedStr lowered "rise of i" then
    (subBoundedStr step2.1 "rise of i" "rise of AI", step2.2 ++ ["rise of I->rise of AI"])
  else step2

def affirmative_tokens : List String :=
  ["yes", "yeah", "yep", "ok", "okay", "do it", "go ahead", "sure"]

def negative_tokens : List String := ["no", "nope", "cancel", "stop", "not now"]

def is_affirmative (cmd : String) : Bool :=
  affirmative_tokens.contains (pyLower (pyStrip cmd))

def is_negative (cmd : String) : Bool :=
  negative_tokens.contains (pyLower (pyStrip cmd))

/-- Embedding of `_is_research_request` (five `\b`-bounded patterns,
`\s+`-separated where the pattern says so). -/
def is_research_request (cmd : String) : Bool :=
  searchBoundedStr cmd "research" || searchBoundedStr cmd "find" ||
  searchPhraseStr cmd ["look", "up"] || searchPhraseStr cmd ["web", "research"] ||
  searchPhraseStr cmd ["search", "for"]

def is_project_analysis_request (cmd : String) : Bool :=
  ["project risk", "risk analysis", "deadline risk", "status report", "project health"].any
    (fun m => containsSub cmd m)

/-- Embedding of `_resolve_export_target`. -/
def resolve_export_target (cmd : String) : Option String :=
  let c := pyLower cmd
  if containsSub c "word" || containsSub c "docx" then some "docx"
  else if containsSub c "powerpoint" || containsSub c "ppt" || containsSub c "slides" then some "pptx"
  else if containsSub c "excel" || containsSub c "xlsx" || containsSub c "spreadsheet" then some "xlsx"
  else none

/-- Embedding of `_classify_intent`; `active` is the truthiness of
`get_active_project()`. -/
def classify_intent (active : Bool) (cmd : String) : String :=
  if is_research_request cmd && (containsSub cmd "plan" || containsSub cmd "workflow") then
    "research_plan"
  else if is_research_request cmd then "research"
  else if is_project_analysis_request cmd && active then "project_analysis"
  else if containsSub cmd "open gmail" then "open_gmail"
  else if containsSub cmd "summarise the last email" || containsSub cmd "summarize the last email"
          || containsSub cmd "read last email" then "gmail_summary"
  else if containsSub cmd "open youtube" then "open_youtube"
  else if containsSub cmd "open a new tab" || pyStrip cmd = "new tab" then "open_new_tab"
  else if (resolve_export_target cmd).isSome then "export_ref"
  else "default"

/-- `str(x).strip() or None` on a command string. -/
def strOrNone (s : String) : Option String := if s = "" then none else some s

/-- The per-option label/command scan of `_match_pending_option`: for each
option in order, the label tests (exact, containment either way, token in
label) come first, then the command-containment test; the first hit
returns (even when the hit option's command strips to empty, which yields
`None` from the function, exactly as the source's early `return`). -/
def scan_options (text : String) : List OptionItem → Option String
  | [] => none
  | o :: rest =>
    let label := pyLower (pyStrip o.label)
    let cl := pyLower (pyStrip o.command)
    if label != "" &&
        (text == label || containsSub text label
          || (splitWsStr text).any (fun tok => containsSub label tok)) then
      strOrNone (pyStrip o.command)
    else if cl != "" && containsSub cl text then
      strOrNone (pyStrip o.command)
    else scan_options text rest

/-- Embedding of `_match_pending_option`. -/
def match_pending_option (cmd : String) (p : PendingAction) : Option String :=
  let text := pyLower (pyStrip cmd)
  match findOptionN none text.data with
  | some n =>
    if 1 ≤ n ∧ n ≤ p.options.length then
      match p.options.get? (n - 1) with
      | some o => strOrNone (pyStrip o.command)
      | none => none
    else scan_options text p.options
  | none => scan_options text p.options

/-- Embedding of `_pending_from_response`. -/
def pending_from_response (resp : Resp) : Option PendingAction :=
  let actions := resp.actions.filter (fun a => a.command != "")
  let show_text := pyStrip resp.show_text
  let question_line :=
    if endsWith show_text "?" then pyStrip ⟨lastLineL show_text.data⟩ else ""
  if actions.isEmpty && question_line = "" then none
  else
    some ⟨(if resp.meta.intent = "" then "follow_up" else resp.meta.intent),
          question_line,
          actions.map (fun a => ⟨pyStrip a.label, pyStrip a.command⟩),
          (match actions with
           | [] => ""
           | a :: _ => pyStrip a.command)⟩

/-- `dict.update` on the debug map: replace in place, append new keys. -/
def setDebugKey : List (String × DebugVal) → String × DebugVal → List (String × DebugVal)
  | [], kv => [kv]
  | (k, v) :: rest, kv => if k = kv.1 then kv :: rest else (k, v) :: setDebugKey rest kv

/-- Embedding of `_finalize_response`: merge the debug updates into
`meta.debug`, then store the pending action derived from the response into
the session.  Returns the response and the updated session. -/
def finalize_response (sess : WfSession) (resp : Resp) (upd : List (String × DebugVal)) :
    Resp × WfSession :=
  let meta' : MetaInfo :=
    ⟨resp.meta.intent, resp.meta.verbosity, resp.meta.sources, upd.foldl setDebugKey resp.meta.debug⟩
  let resp' : Resp := ⟨resp.say_text, resp.show_text, resp.evidence, resp.files, resp.actions, meta'⟩
  (resp', ⟨sess.last_research, sess.last_files, sess.last_intent, sess.artifacts,
           pending_from_response resp', sess.context_topic, sess.context_country,
           sess.context_domain⟩)

/-- Outcome of one `handle_command` turn up to (but not into) the command
core: either a finished reply (response plus finalized session), or a
dispatch into `_handle_command_core` with the text it receives and, when
the turn came from a pending resolution, the resolved command recorded as
provenance. -/
inductive TurnOutcome where
  | reply (resp : Resp) (sessionAfter : WfSession)
  | core (cmdText : String) (resolvedFrom : Option String) (corrections : List String)
deriving DecidableEq, Repr

def pending_cancel_args : MakeArgs :=
  { summary := "Okay, canceled.", intent := "pending_cancel",
    say_text := some "Okay, canceled.", question := some "What should I do next" }

def pending_none_args : MakeArgs :=
  { summary := "I do not have a pending action yet.", intent := "pending_none",
    say_text := some "I do not have a pending action yet.", question := some "What should I do" }

/-- `wf_session["pending"] = None`. -/
def cleared (sess : WfSession) : WfSession :=
  ⟨sess.last_research, sess.last_files, sess.last_intent, sess.artifacts, none,
   sess.context_topic, sess.context_country, sess.context_domain⟩

/-- The debug updates `{"stt_corrections": corrections} if corrections
else None` passed to `_finalize_response`. -/
def corr_upd (corrections : List String) : List (String × DebugVal) :=
  if corrections.isEmpty then [] else [("stt_corrections", DebugVal.sl corrections)]

/-- The normalized, stripped, lowercased command text computed at the top
of `handle_command`. -/
def normalized_cmd (text : String) : String :=
  pyLower (pyStrip (normalize_stt_text text).1)

/-- Embedding of `handle_command` (the pending-action resolver and the
top-level affirmative guard; a `core` outcome stands for the call into
`_handle_command_core`, after which the source finalizes the response the
same way `finalize_response` does). -/
def handle_command_step (env : Option String) (sess : WfSession) (text : String) :
    TurnOutcome :=
  let norm := normalize_stt_text text
  let normalized := norm.1
  let corrections := norm.2
  let cmd := pyLower (pyStrip normalized)
  let afterPending : TurnOutcome :=
    if is_affirmative cmd then
      let fr := finalize_response sess (make_response env pending_none_args) (corr_upd corrections)
      .reply fr.1 fr.2
    else .core normalized none corrections
  match sess.pending with
  | some p =>
    if is_negative cmd then
      let fr := finalize_response (cleared sess) (make_response env pending_cancel_args)
        (corr_upd corrections)
      .reply fr.1 fr.2
    else
      match match_pending_option cmd p with
      | some selected => .core selected (some selected) corrections
      | none =>
        if is_affirmative cmd && pyStrip p.default_command != "" then
          .core (pyStrip p.default_command) (some (pyStrip p.default_command)) corrections
        else afterPending
  | none => afterPending

def outcome_is_core : TurnOutcome → Bool
  | .reply _ _ => false
  | .core _ _ _ => true

def outcome_intent : TurnOutcome → Option String
  | .reply r _ => some r.meta.intent
  | .core _ _ _ => none

def outcome_show : TurnOutcome → Option String
  | .reply r _ => some r.show_text
  | .core _ _ _ => none

/-- The session's pending field at the end of a `reply` turn. -/
def outcome_pending : TurnOutcome → Option (Option PendingAction)
  | .reply _ s => some s.pending
  | .core _ _ _ => none

/-! ## The command core's dispatch chain (`_handle_command_core`) -/

/-- Embedding of `_looks_cutoff`. -/
def looks_cutoff (text : String) : Bool :=
  let t := pyLower (pyStrip text)
  if t = "" then false
  else if ["hi", "hello", "hey", "yo"].contains t then false
  else if t.length ≤ 3 then true
  else
    ["and", "so", "uh", "umm", "hmm", "wait", "then", "..."].contains t
    || endsWith t "..." || endsWith t "," || endsWith t " and" || endsWith t " so"

def is_greeting (cmd : String) : Bool :=
  ["hi", "hello", "hey", "yo", "good morning", "good afternoon", "good evening"].contains cmd

/-- Embedding of `_needs_workflow_clarification`. -/
def needs_workflow_clarification (cmd : String) : Bool :=
  (["workflow", "automate", "automation", "work plan", "project plan"].any
     (fun k => containsSub cmd k))
  && !(["for ", "company", "team", "department", "health", "finance", "retail"].any
     (fun k => containsSub cmd k))

/-- The missing-slot questions of the workflow-clarification handler (the
source keeps at most the first two). -/
def missing_questions (st : ConvState) : List String :=
  ((if st.company_name = "" then ["Which company or team is this for?"] else []) ++
   (if st.chosen_workflow_area = "" then ["Which workflow area should I target?"] else []) ++
   (if st.goal = "" then ["What is your primary goal for this workflow?"] else []) ++
   (if st.compliance_level = "" then ["Any compliance level should I apply?"] else [])).take 2

/-- The backward-reference cue of the export handler (`export_ref` in the
core). -/
def export_ref_cue (cmd : String) : Bool :=
  (["that", "this", "it", "research", "from this", "use the research"].any
     (fun k => containsSub cmd k))
  || startsWith cmd "export to " || startsWith cmd "make a powerpoint"
  || startsWith cmd "make powerpoint"

/-- The branches of `_handle_command_core`, in source order. -/
inductive CoreBranch where
  | cutoff | openGmail | gmailSummary | gmailSetup | skipGmail | specifyCountry
  | openYoutube | openNewTab | research | researchPlan | projectAnalysis
  | visionChat | greeting | helpB | identityB | clarifyWorkflow
  | openMisc | minimizeB | youtubeLearn | exportNoResearch | exportRun
  | createProject | genPlan | statusB | doctorB | taskDone | taskDelay
  | exportLegacy | chatFallback
deriving DecidableEq, Repr

/-- Which branch of `_handle_command_core` fires, reproducing the source's
guard chain in order.  `st` is the conversation state after
`_update_state_from_text`; `hasImgs` is the truthiness of
`files and has_images(files)`; `hasResearch` is the truthiness of
`wf_session["last_research"]`. -/
def core_branch (active : Bool) (st : ConvState) (hasImgs : Bool) (hasResearch : Bool)
    (text : String) : CoreBranch :=
  let cmd := pyLower (pyStrip text)
  if looks_cutoff text then .cutoff else
  let intent := classify_intent active cmd
  if intent = "open_gmail" then .openGmail else
  if intent = "gmail_summary" then .gmailSummary else
  if containsSub cmd "open gmail setup guide" then .gmailSetup else
  if cmd = "skip gmail" then .skipGmail else
  if containsSub cmd "specify country for research" then .specifyCountry else
  if intent = "open_youtube" then .openYoutube else
  if intent = "open_new_tab" then .openNewTab else
  if intent = "research" then .research else
  if intent = "research_plan" then .researchPlan else
  if intent = "project_analysis" then .projectAnalysis else
  if hasImgs then .visionChat else
  if is_greeting cmd then .greeting else
  if containsSub cmd "help" || containsSub cmd "what can you do" then .helpB else
  if containsSub cmd "what are you" || containsSub cmd "who are you" then .identityB else
  if (needs_workflow_clarification cmd
      || (containsSub cmd "workflow"
          && (containsSub cmd "create" || containsSub cmd "make" || containsSub cmd "build")))
     && !(missing_questions st).isEmpty then .clarifyWorkflow else
  if containsSub cmd "open"
     && (containsSub cmd "youtube" || containsSub cmd "note" || containsSub cmd "notepad"
         || containsSub cmd "word" || containsSub cmd "excel" || containsSub cmd "url"
         || containsSub cmd "browser" || containsSub cmd "google") then .openMisc else
  if containsSub cmd "minimize" || containsSub cmd "hide windows" then .minimizeB else
  if containsSub cmd "learn" && containsSub cmd "youtube" then .youtubeLearn else
  if (resolve_export_target cmd).isSome && export_ref_cue cmd then
    (if hasResearch then .exportRun else .exportNoResearch) else
  if containsSub cmd "create" && containsSub cmd "project" then .createProject else
  if containsSub cmd "plan"
     && (containsSub cmd "generate" || containsSub cmd "make" || containsSub cmd "create") then
    .genPlan else
  if containsSub cmd "status" || containsSub cmd "progress" || containsSub cmd "list tasks" then
    .statusB else
  if containsSub cmd "doctor" || containsSub cmd "diagnose" then .doctorB else
  if containsSub cmd "done" || containsSub cmd "finish" || containsSub cmd "complete" then
    .taskDone else
  if containsSub cmd "delay" then .taskDelay else
  if containsSub cmd "export" || containsSub cmd "save" then .exportLegacy else
  .chatFallback

/-- The domain-tailored quick-reply options of the workflow-clarification
handler. -/
def clarify_quick_actions (st : ConvState) : List OptionItem :=
  let domain := if st.domain ≠ "" then st.domain else "health"
  if domain = "health" then
    [⟨"Claims Workflow", "build claims workflow for a health company with hipaa compliance"⟩,
     ⟨"Onboarding Workflow", "build onboarding workflow for a health company"⟩]
  else
    [⟨"Operations Workflow", "build operations workflow for a " ++ domain ++ " company"⟩,
     ⟨"Compliance Workflow", "build compliance workflow for a " ++ domain ++ " company"⟩]

/-- The only session mutation performed before the collaborator-free
returns of `_handle_command_core`: the top-of-function refresh of
`wf_session["context"]["domain"]` from the state's domain slot. -/
def core_context_refresh (st : ConvState) (sess : WfSession) : WfSession :=
  if st.domain ≠ "" then
    ⟨sess.last_research, sess.last_files, sess.last_intent, sess.artifacts, sess.pending,
     sess.context_topic, sess.context_country, some st.domain⟩
  else sess

/-- The stripped lowercased command computed at the top of
`_handle_command_core`. -/
def core_cmd (text : String) : String := pyLower (pyStrip text)

/-- Semantics of `_handle_command_core` for the branches that call no
external collaborator (the branches that return a `make_response` built
from constants and session state alone).  The session component reflects
the only mutation performed before these returns: the top-of-function
`context["domain"]` refresh.  Branches that call collaborators (research,
exports, OS actions, Gmail, AI chat, the task engine) are given no
semantics here (`none`); no claim needs their result values. -/
def core_pure_step (env : Option String) (active : Bool) (st : ConvState) (hasImgs : Bool)
    (sess : WfSession) (text : String) : Option (Resp × WfSession) :=
  let sess1 : WfSession := core_context_refresh st sess
  match core_branch active st hasImgs sess.last_research.isSome text with
  | .cutoff => some (make_response env { summary := "Go on - what should I do?", intent := "cutoff" }, sess1)
  | .skipGmail => some (make_response env
      { summary := "Okay, Gmail skipped.", intent := "gmail_skip",
        question := some "What should I do next" }, sess1)
  | .specifyCountry => some (make_response env
      { summary := "Tell me the country and I will rerun research.", intent := "research",
        question := some "Which country should I use" }, sess1)
  | .openNewTab => some (make_response env
      { summary := "I can open the site in a new window. Which site should I open?",
        actions := [⟨"Open Gmail", "open gmail"⟩, ⟨"Open YouTube", "open youtube"⟩,
                    ⟨"Open Google", "open google"⟩],
        intent := "open_new_tab", say_text := some "Which site should I open?" }, sess1)
  | .greeting => some (make_response env
      { summary := "Hi. I can help you plan workflows, research options, and generate task plans.",
        actions := [⟨"Create Workflow", "make a project workflow for a health company"⟩,
                    ⟨"Web Research Plan", "create a work plan for a health company with web research"⟩],
        intent := "greeting", question := some "What should I help you build first" }, sess1)
  | .helpB => some (make_response env
      { summary := "I can create plans, run web research, and build task workflows.",
        bullets := ["Planning: create project, generate plan, check status.",
                    "Research: build plans using web sources and visual evidence.",
                    "System actions: open notes, word, excel, youtube."],
        actions := [⟨"Plan Workflow", "make a project workflow for a health company"⟩,
                    ⟨"Research + Plan", "create a work plan for a health company with web research"⟩],
        intent := "help", question := some "Which option do you want to run" }, sess1)
  | .identityB => some (make_response env
      { summary := "I am your planning assistant for workflows, research, and execution steps.",
        bullets := ["I create project workflows with phases and tasks.",
                    "I research sources and attach evidence when useful.",
                    "I give actionable next options you can run right away."],
        actions := [⟨"Create Workflow", "make a project workflow for a health company"⟩,
                    ⟨"Research Plan", "create a work plan for a health company with web research"⟩],
        intent := "identity", question := some "Do you want a workflow draft or a researched plan" }, sess1)
  | .clarifyWorkflow => some (make_response env
      { summary := "I can build that workflow, and I need a couple details first.",
        bullets := missing_questions st, actions := clarify_quick_actions st,
        intent := "clarify_workflow", question := some "Which option should I use" }, sess1)
  | .exportNoResearch => some (make_response env
      { summary := "What should I research first?", intent := "export" }, sess1)
  | _ => none

/-- The response built by the export guard when `last_research` is empty
(`make_response(summary="What should I research first?", intent="export")`). -/
def export_guard_resp (env : Option String) : Resp :=
  make_response env { summary := "What should I research first?", intent := "export" }

/-! ## Concrete values used by witnesses and counterexamples -/

/-- The follow-up pending action that the cancellation reply's trailing
question produces. -/
def cancel_follow_up : PendingAction :=
  ⟨"pending_cancel", "What should I do next?", [], ""⟩

/-- The country-clarification pending action of the spec's option-resolution
example. -/
def botswana_pending : PendingAction :=
  ⟨"research", "Which country should I focus on?",
   [⟨"Botswana", "research X in Botswana"⟩, ⟨"United States", "research X in United States"⟩],
   "research X in Botswana"⟩

def session_bp : WfSession := { pending := some botswana_pending }

/-- A session whose pending action has no options and an empty default
command (exactly what a cancellation turn leaves behind). -/
def session_cancel : WfSession := { pending := some cancel_follow_up }

/-- Options where an earlier option's command contains the reply while a
later option's label equals it. -/
def mixed_pending : PendingAction :=
  ⟨"follow_up", "Pick one", [⟨"Alpha", "yes go"⟩, ⟨"yes", "run b"⟩], ""⟩

/-- The conversation state `_update_state_from_text` leaves for
`"help me export that to word"` on a fresh session (the `" to "` rule sets
the goal slot). -/
def state_goal_word : ConvState := { goal := "word" }

/-- A small concrete response for the pending-invariant witness. -/
def c2_resp : Resp :=
  make_response none { summary := "Hi.", actions := [⟨"Go", "run it"⟩], intent := "greeting" }

/-- The insufficient-sources research reply exactly as the core builds it
for the turn `"research ."`: the topic extracts to the empty string, the
research collaborator returns no sources, and the reply's action commands
are rendered from f-strings with the empty topic — the first action's
command is `"research "` with a trailing space. -/
def low_source_resp : Resp :=
  make_response none
    { summary := "I could not gather enough reliable sources yet.",
      bullets := ["The query is too broad or unclear.",
                  "I need one detail to improve source quality."],
      actions := [⟨"Retry research", "research "⟩,
                  ⟨"Continue without sources", "continue without sources for "⟩,
                  ⟨"Specify country", "research  in Botswana"⟩],
      intent := "research",
      say_text := some "I need one more detail before I continue research.",
      question := some "Which country or sub-topic should I focus on",
      debug := [("research_reason", DebugVal.s "insufficient_sources"),
                ("source_count", DebugVal.n 0)] }

/-! ## Helper lemmas -/

theorem get_verbosity_cases (env : Option String) :
    get_verbosity env = "quick" ∨ get_verbosity env = "standard" ∨
    get_verbosity env = "detailed" := by
  have key : ∀ c : String,
      (if allowed_verbosity.contains c then c else "quick") = "quick" ∨
      (if allowed_verbosity.contains c then c else "quick") = "standard" ∨
      (if allowed_verbosity.contains c then c else "quick") = "detailed" := by
    intro c
    by_cases h : allowed_verbosity.contains c = true
    · have hm := List.mem_of_elem_eq_true h
      simp only [allowed_verbosity, List.mem_cons, List.not_mem_nil, or_false] at hm
      rcases hm with h1 | h1 | h1 <;> subst h1 <;> decide
    · rw [if_neg h]
      exact Or.inl rfl
  exact key (pyLower (pyStrip (match env with
    | none => "quick"
    | some s => s)))

theorem make_response_none_verbosity (env : Option String) (a : MakeArgs)
    (h : a.verbosity = none) :
    make_response env a = make_response_v (get_verbosity env) a := by
  unfold make_response
  rw [h]

theorem finalize_intent (sess : WfSession) (resp : Resp) (upd : List (String × DebugVal)) :
    ((finalize_response sess resp upd).1).meta.intent = resp.meta.intent := rfl

theorem finalize_show (sess : WfSession) (resp : Resp) (upd : List (String × DebugVal)) :
    ((finalize_response sess resp upd).1).show_text = resp.show_text := rfl

theorem finalize_pending (sess : WfSession) (resp : Resp) (upd : List (String × DebugVal)) :
    ((finalize_response sess resp upd).2).pending = pending_from_response resp := rfl

theorem cancel_resp_facts (env : Option String) :
    (make_response env pending_cancel_args).meta.intent = "pending_cancel" ∧
    (make_response env pending_cancel_args).show_text =
      "Okay, canceled.\n\nWhat should I do next?" ∧
    pending_from_response (make_response env pending_cancel_args) = some cancel_follow_up := by
  rw [make_response_none_verbosity env pending_cancel_args rfl]
  rcases get_verbosity_cases env with h | h | h <;> rw [h] <;>
    exact ⟨by decide, by decide, by decide⟩

theorem pending_none_resp_facts (env : Option String) :
    (make_response env pending_none_args).meta.intent = "pending_none" ∧
    (make_response env pending_none_args).show_text =
      "I do not have a pending action yet.\n\nWhat should I do?" := by
  rw [make_response_none_verbosity env pending_none_args rfl]
  rcases get_verbosity_cases env with h | h | h <;> rw [h] <;>
    exact ⟨by decide, by decide⟩

theorem affirmative_not_negative (s : String) (h : is_affirmative s = true) :
    is_negative s = false := by
  unfold is_affirmative at h
  have hm := List.mem_of_elem_eq_true h
  unfold is_negative
  simp only [affirmative_tokens, List.mem_cons, List.mem_singleton, List.not_mem_nil,
    or_false] at hm
  rcases hm with h1 | h1 | h1 | h1 | h1 | h1 | h1 | h1 <;> rw [h1] <;> decide

/-! ## Claim C1 -/

/-- Claim C1, counterexample: on a session with the country-clarification
pending action, the turn `"no"` does return the `pending_cancel` reply, but
the session's pending field at the end of the turn is the follow-up
question record derived from the reply's trailing prompt — not `None` as
the claim states. -/
theorem C1_counterexample :
    outcome_intent (handle_command_step none session_bp "no") = some "pending_cancel" ∧
    outcome_pending (handle_command_step none session_bp "no") = some (some cancel_follow_up) ∧
    outcome_pending (handle_command_step none session_bp "no") ≠ some none := by
  refine ⟨by decide, by decide, by decide⟩

/-- Claim C1 (amended): for every session whose pending action is set, a
turn whose normalized lowercased text is a negative token returns the
cancellation reply (intent `pending_cancel`, generic what-next prompt) and
does not reach the command core; the pending field is first cleared, but
the turn's finalization then derives a fresh `PendingAction` from the
reply's trailing question, so the session ends the turn with the follow-up
record (kind `pending_cancel`, question `"What should I do next?"`, no
options, empty default) rather than `None`. -/
theorem C1_cancel_turn (env : Option String) (sess : WfSession) (p : PendingAction)
    (text : String) (hp : sess.pending = some p)
    (hn : is_negative (normalized_cmd text) = true) :
    outcome_is_core (handle_command_step env sess text) = false ∧
    outcome_intent (handle_command_step env sess text) = some "pending_cancel" ∧
    outcome_show (handle_command_step env sess text) =
      some "Okay, canceled.\n\nWhat should I do next?" ∧
    outcome_pending (handle_command_step env sess text) = some (some cancel_follow_up) := by
  simp only [normalized_cmd] at hn
  have hkey : handle_command_step env sess text =
      .reply (finalize_response (cleared sess) (make_response env pending_cancel_args)
                (corr_upd (normalize_stt_text text).2)).1
             (finalize_response (cleared sess) (make_response env pending_cancel_args)
                (corr_upd (normalize_stt_text text).2)).2 := by
    unfold handle_command_step
    rw [hp]
    simp [hn]
  obtain ⟨hi, hs, hq⟩ := cancel_resp_facts env
  rw [hkey]
  refine ⟨rfl, ?_, ?_, ?_⟩
  · show some ((finalize_response _ _ _).1.meta.intent) = _
    rw [finalize_intent, hi]
  · show some ((finalize_response _ _ _).1.show_text) = _
    rw [finalize_show, hs]
  · show some ((finalize_response _ _ _).2.pending) = _
    rw [finalize_pending, hq]

/-- Witness for C1: the amended theorem applied to the concrete session and
the turn `"no"`. -/
theorem C1_cancel_turn_witness :
    outcome_is_core (handle_command_step none session_bp "no") = false ∧
    outcome_intent (handle_command_step none session_bp "no") = some "pending_cancel" ∧
    outcome_show (handle_command_step none session_bp "no") =
      some "Okay, canceled.\n\nWhat should I do next?" ∧
    outcome_pending (handle_command_step none session_bp "no") = some (some cancel_follow_up) :=
  C1_cancel_turn none session_bp botswana_pending "no" rfl (by decide)

/-! ## Claim C4 -/

/-- Claim C4: a lowercased utterance containing a word-bounded research
marker together with the substring `"plan"` or `"workflow"` always
classifies as `research_plan` and never as `research` (the research+plan
rule precedes the bare research rule). -/
theorem C4_research_plan_priority (active : Bool) (cmd : String)
    (h1 : is_research_request cmd = true)
    (h2 : containsSub cmd "plan" = true ∨ containsSub cmd "workflow" = true) :
    classify_intent active cmd = "research_plan" ∧
    classify_intent active cmd ≠ "research" := by
  unfold classify_intent
  rcases h2 with h2 | h2 <;> simp [h1, h2]

/-- Witness for C4: the spec's example utterance. -/
theorem C4_research_plan_priority_witness :
    classify_intent false "create a work plan for a health company with web research" =
      "research_plan" ∧
    classify_intent false "create a work plan for a health company with web research" ≠
      "research" :=
  C4_research_plan_priority false _ (by decide) (Or.inl (by decide))

/-! ## Claim C5 -/

/-- Claim C5: on a session with no pending action, an affirmative token
produces the explicit `pending_none` reply (`"I do not have a pending
action yet."`) and never dispatches into the command core, so no command
handler or external collaborator runs. -/
theorem C5_affirmative_no_pending (env : Option String) (sess : WfSession) (text : String)
    (hp : sess.pending = none) (ha : is_affirmative (normalized_cmd text) = true) :
    outcome_is_core (handle_command_step env sess text) = false ∧
    outcome_intent (handle_command_step env sess text) = some "pending_none" ∧
    outcome_show (handle_command_step env sess text) =
      some "I do not have a pending action yet.\n\nWhat should I do?" := by
  simp only [normalized_cmd] at ha
  have hkey : handle_command_step env sess text =
      .reply (finalize_response sess (make_response env pending_none_args)
                (corr_upd (normalize_stt_text text).2)).1
             (finalize_response sess (make_response env pending_none_args)
                (corr_upd (normalize_stt_text text).2)).2 := by
    unfold handle_command_step
    rw [hp]
    simp [ha]
  obtain ⟨hi, hs⟩ := pending_none_resp_facts env
  rw [hkey]
  refine ⟨rfl, ?_, ?_⟩
  · show some ((finalize_response _ _ _).1.meta.intent) = _
    rw [finalize_intent, hi]
  · show some ((finalize_response _ _ _).1.show_text) = _
    rw [finalize_show, hs]

/-- Witness for C5: `"yes"` on a fresh session. -/
theorem C5_affirmative_no_pending_witness :
    outcome_is_core (handle_command_step none {} "yes") = false ∧
    outcome_intent (handle_command_step none {} "yes") = some "pending_none" ∧
    outcome_show (handle_command_step none {} "yes") =
      some "I do not have a pending action yet.\n\nWhat should I do?" :=
  C5_affirmative_no_pending none {} "yes" rfl (by decide)

/-! ## Claim C6 -/

/-- Claim C6, counterexample: with a pending action whose `defaultCommand`
is empty (the cancellation follow-up), the bare affirmative `"yes"` does
not fall through to default classification of the raw text (which would be
a `core` dispatch ending in the chat fallback); instead the top-level
affirmative guard answers with the `pending_none` reply. -/
theorem C6_counterexample :
    (session_cancel.pending.map (fun p => pyStrip p.default_command)) = some "" ∧
    is_affirmative "yes" = true ∧
    outcome_is_core (handle_command_step none session_cancel "yes") = false ∧
    outcome_intent (handle_command_step none session_cancel "yes") = some "pending_none" := by
  refine ⟨by decide, by decide, by decide, by decide⟩

/-- Claim C6 (amended): with a pending action set, a bare affirmative that
matches no option and finds an empty `defaultCommand` falls through to the
top-level affirmative guard, producing the `pending_none` reply
(`"I do not have a pending action yet."`) — not a re-classification of the
raw text and not the chat fallback. -/
theorem C6_empty_default_affirmative (env : Option String) (sess : WfSession)
    (p : PendingAction) (text : String) (hp : sess.pending = some p)
    (hd : pyStrip p.default_command = "")
    (hm : match_pending_option (normalized_cmd text) p = none)
    (ha : is_affirmative (normalized_cmd text) = true) :
    outcome_is_core (handle_command_step env sess text) = false ∧
    outcome_intent (handle_command_step env sess text) = some "pending_none" ∧
    outcome_show (handle_command_step env sess text) =
      some "I do not have a pending action yet.\n\nWhat should I do?" := by
  have hneg := affirmative_not_negative _ ha
  simp only [normalized_cmd] at ha hm hneg
  have hkey : handle_command_step env sess text =
      .reply (finalize_response sess (make_response env pending_none_args)
                (corr_upd (normalize_stt_text text).2)).1
             (finalize_response sess (make_response env pending_none_args)
                (corr_upd (normalize_stt_text text).2)).2 := by
    unfold handle_command_step
    rw [hp]
    simp [hneg, hm, ha, hd]
  obtain ⟨hi, hs⟩ := pending_none_resp_facts env
  rw [hkey]
  refine ⟨rfl, ?_, ?_⟩
  · show some ((finalize_response _ _ _).1.meta.intent) = _
    rw [finalize_intent, hi]
  · show some ((finalize_response _ _ _).1.show_text) = _
    rw [finalize_show, hs]

/-- Witness for C6: `"yes"` on the post-cancellation session. -/
theorem C6_empty_default_affirmative_witness :
    outcome_is_core (handle_command_step none session_cancel "yes") = false ∧
    outcome_intent (handle_command_step none session_cancel "yes") = some "pending_none" ∧
    outcome_show (handle_command_step none session_cancel "yes") =
      some "I do not have a pending action yet.\n\nWhat should I do?" :=
  C6_empty_default_affirmative none session_cancel cancel_follow_up "yes" rfl (by decide)
    (by decide) (by decide)

/-! ## Character-level lemmas for the TTS sanitizer (claims C9, C10) -/

theorem mem_stripTrail (p : Char → Bool) (l : List Char) (c : Char)
    (h : c ∈ stripTrailL p l) : c ∈ l := by
  induction l with
  | nil => cases h
  | cons x xs ih =>
    unfold stripTrailL at h
    by_cases hc : ((stripTrailL p xs).isEmpty && p x) = true
    · rw [if_pos hc] at h
      cases h
    · rw [if_neg hc] at h
      rcases List.mem_cons.mp h with rfl | h2
      · exact List.mem_cons_self _ _
      · exact List.mem_cons_of_mem _ (ih h2)

theorem mem_stripSet (p : Char → Bool) (l : List Char) (c : Char)
    (h : c ∈ stripSetL p l) : c ∈ l := by
  unfold stripSetL at h
  exact (List.dropWhile_sublist p).mem (mem_stripTrail p _ c h)

theorem mem_collapseWs (b : Bool) (l : List Char) (c : Char)
    (h : c ∈ collapseWsAux b l) : c ∈ l ∨ c = ' ' := by
  induction l generalizing b with
  | nil => cases h
  | cons x xs ih =>
    unfold collapseWsAux at h
    by_cases hx : isWsChar x = true
    · rw [if_pos hx] at h
      by_cases hb : b = true
      · rw [if_pos hb] at h
        rcases ih true h with h2 | h2
        · exact Or.inl (List.mem_cons_of_mem _ h2)
        · exact Or.inr h2
      · rw [if_neg hb] at h
        rcases List.mem_cons.mp h with rfl | h2
        · exact Or.inr rfl
        · rcases ih true h2 with h3 | h3
          · exact Or.inl (List.mem_cons_of_mem _ h3)
          · exact Or.inr h3
    · rw [if_neg hx] at h
      rcases List.mem_cons.mp h with rfl | h2
      · exact Or.inl (List.mem_cons_self _ _)
      · rcases ih false h2 with h3 | h3
        · exact Or.inl (List.mem_cons_of_mem _ h3)
        · exact Or.inr h3

theorem consHead_ne_nil (c : Char) (parts : List (List Char)) : consHead c parts ≠ [] := by
  unfold consHead
  cases parts <;> simp

theorem ssplit_ne_nil (p : Char) (l : List Char) : ssplitL p l ≠ [] := by
  induction l generalizing p with
  | nil => simp [ssplitL]
  | cons x xs ih =>
    unfold ssplitL
    by_cases hc : (brkChar p && x = ' ') = true
    · rw [if_pos hc]
      simp
    · rw [if_neg hc]
      exact consHead_ne_nil _ _

theorem mem_ssplit_parts (l : List Char) (p : Char) (part : List Char) (c : Char)
    (hpart : part ∈ ssplitL p l) (hc : c ∈ part) : c ∈ l := by
  induction l generalizing p part with
  | nil =>
    unfold ssplitL at hpart
    rcases List.mem_cons.mp hpart with rfl | h2
    · cases hc
    · cases h2
  | cons x xs ih =>
    unfold ssplitL at hpart
    by_cases hcond : (brkChar p && x = ' ') = true
    · rw [if_pos hcond] at hpart
      rcases List.mem_cons.mp hpart with rfl | h2
      · cases hc
      · exact List.mem_cons_of_mem _ (ih x part h2 hc)
    · rw [if_neg hcond] at hpart
      rcases hrec : ssplitL x xs with _ | ⟨hh, tt⟩
      · exact absurd hrec (ssplit_ne_nil x xs)
      · rw [hrec] at hpart
        unfold consHead at hpart
        rcases List.mem_cons.mp hpart with rfl | h2
        · rcases List.mem_cons.mp hc with rfl | h3
          · exact List.mem_cons_self _ _
          · have hmem : hh ∈ ssplitL x xs := by
              rw [hrec]
              exact List.mem_cons_self _ _
            exact List.mem_cons_of_mem _ (ih x hh hmem h3)
        · have hmem : part ∈ ssplitL x xs := by
            rw [hrec]
            exact List.mem_cons_of_mem _ h2
          exact List.mem_cons_of_mem _ (ih x part hmem hc)

theorem mem_joinL (sep : List Char) (parts : List (List Char)) (c : Char)
    (h : c ∈ joinL sep parts) : (∃ part ∈ parts, c ∈ part) ∨ c ∈ sep := by
  induction parts with
  | nil => cases h
  | cons x xs ih =>
    rcases xs with _ | ⟨y, ys⟩
    · exact Or.inl ⟨x, List.mem_cons_self _ _, h⟩
    · unfold joinL at h
      rcases List.mem_append.mp h with h2 | h2
      · rcases List.mem_append.mp h2 with h3 | h3
        · exact Or.inl ⟨x, List.mem_cons_self _ _, h3⟩
        · exact Or.inr h3
      · rcases ih h2 with ⟨part, hpart, hcc⟩ | h3
        · exact Or.inl ⟨part, List.mem_cons_of_mem _ hpart, hcc⟩
        · exact Or.inr h3

/-- Characters of `_limit_sentences` output come from the input or are
spaces. -/
theorem mem_limit_sentences (s : String) (k : Nat) (c : Char)
    (h : c ∈ (limit_sentences s k).data) : c ∈ s.data ∨ c = ' ' := by
  unfold limit_sentences at h
  by_cases hempty : pyStrip ⟨collapseWs s.data⟩ = ""
  · rw [if_pos hempty] at h
    cases h
  · rw [if_neg hempty] at h
    have h2 := mem_stripSet _ _ _ h
    rcases mem_joinL _ _ _ h2 with ⟨part, hpart, hcc⟩ | h3
    · have hpart2 := List.take_subset k _ hpart
      have h4 := mem_ssplit_parts _ 'A' part c hpart2 hcc
      have h5 := mem_stripSet _ _ _ h4
      rcases mem_collapseWs false _ _ h5 with h6 | h6
      · exact Or.inl h6
      · exact Or.inr h6
    · rcases List.mem_cons.mp h3 with rfl | h4
      · exact Or.inr rfl
      · cases h4

theorem digitChar_range (n : Nat) (h : n < 10) :
    48 ≤ (digitChar n).toNat ∧ (digitChar n).toNat ≤ 57 := by
  interval_cases n <;> decide

theorem natReprAux_digits (fuel n : Nat) (c : Char) (h : c ∈ natReprAux fuel n) :
    48 ≤ c.toNat ∧ c.toNat ≤ 57 := by
  induction fuel generalizing n with
  | zero => cases h
  | succ fuel ih =>
    unfold natReprAux at h
    by_cases hn : n < 10
    · rw [if_pos hn] at h
      rcases List.mem_cons.mp h with rfl | h2
      · exact digitChar_range n hn
      · cases h2
    · rw [if_neg hn] at h
      rcases List.mem_append.mp h with h2 | h2
      · exact ih _ h2
      · rcases List.mem_cons.mp h2 with rfl | h3
        · exact digitChar_range _ (Nat.mod_lt _ (by omega))
        · cases h3

/-- No character of the sanitizer's core text is a bracket: the bracket
removal pass deletes them all, and the later passes (whitespace collapse,
stripping, sentence capping) only keep input characters or insert
spaces. -/
theorem tts_core_no_brackets (t : String) (c : Char) (h : c ∈ (tts_core t).data) :
    isBracketChar c = false := by
  unfold tts_core at h
  rcases mem_limit_sentences _ _ _ h with h2 | h2
  · have h3 := mem_stripSet _ _ _ h2
    rcases mem_collapseWs false _ _ h3 with h4 | h4
    · have h5 := List.of_mem_filter h4
      simpa using h5
    · rw [h4]; decide
  · rw [h2]; decide

/-! ## Sentence counting for the two-sentence cap (claim C9) -/

/-- Number of sentence-break positions (a space preceded by `[.!?]`) in a
character list, given the previous character. -/
def breaks : Char → List Char → Nat
  | _, [] => 0
  | p, c :: cs => (if brkChar p && c = ' ' then 1 else 0) + breaks c cs

theorem consHead_length (c : Char) (parts : List (List Char)) (h : parts ≠ []) :
    (consHead c parts).length = parts.length := by
  unfold consHead
  cases parts with
  | nil => exact absurd rfl h
  | cons x xs => rfl

theorem ssplit_length (l : List Char) (p : Char) :
    (ssplitL p l).length = 1 + breaks p l := by
  induction l generalizing p with
  | nil => rfl
  | cons x xs ih =>
    unfold ssplitL breaks
    by_cases hcond : (brkChar p && x = ' ') = true
    · rw [if_pos hcond, if_pos hcond]
      simp [ih x]
      omega
    · rw [if_neg hcond, if_neg hcond]
      rw [consHead_length x _ (ssplit_ne_nil x xs), ih x]
      omega

/-- The head part of a sentence split has no internal break (relative to
the same previous character), and every later part has none relative to
the separating space. -/
theorem ssplit_parts_clean (l : List Char) (p : Char) :
    ∀ h t, ssplitL p l = h :: t → breaks p h = 0 ∧ ∀ q ∈ t, breaks ' ' q = 0 := by
  induction l generalizing p with
  | nil =>
    intro h t heq
    unfold ssplitL at heq
    injection heq with h1 h2
    subst h1
    subst h2
    exact ⟨rfl, fun q hq => absurd hq (List.not_mem_nil q)⟩
  | cons x xs ih =>
    intro h t heq
    unfold ssplitL at heq
    by_cases hcond : (brkChar p && x = ' ') = true
    · rw [if_pos hcond] at heq
      injection heq with h1 h2
      subst h1
      refine ⟨rfl, ?_⟩
      intro q hq
      rw [← h2] at hq
      rcases hrec : ssplitL x xs with _ | ⟨hh, tt⟩
      · exact absurd hrec (ssplit_ne_nil x xs)
      · rw [hrec] at hq
        have hx : x = ' ' := by
          have := (Bool.and_eq_true_iff.mp hcond).2
          exact decide_eq_true_eq.mp this
        rcases List.mem_cons.mp hq with rfl | h3
        · rw [← hx]
          exact (ih x q tt hrec).1
        · exact (ih x hh tt hrec).2 q h3
    · rw [if_neg hcond] at heq
      rcases hrec : ssplitL x xs with _ | ⟨hh, tt⟩
      · exact absurd hrec (ssplit_ne_nil x xs)
      · rw [hrec] at heq
        unfold consHead at heq
        injection heq with h1 h2
        subst h1
        subst h2
        constructor
        · show (if brkChar p && x = ' ' then 1 else 0) + breaks x hh = 0
          rw [if_neg hcond, (ih x hh tt hrec).1]
        · exact (ih x hh tt hrec).2

theorem breaks_append (a : List Char) (p : Char) (b : List Char) :
    breaks p (a ++ b) = breaks p a + breaks (a.getLastD p) b := by
  induction a generalizing p with
  | nil => simp [breaks]
  | cons x xs ih =>
    show (if brkChar p && x = ' ' then 1 else 0) + breaks x (xs ++ b) = _
    rw [ih x]
    have hlast : (x :: xs).getLastD p = xs.getLastD x := List.getLastD_cons p x xs
    rw [hlast]
    show _ = (if brkChar p && x = ' ' then 1 else 0) + breaks x xs + breaks (xs.getLastD x) b
    omega

/-- Two non-break previous characters give the same break count. -/
theorem breaks_nonbrk_eq (l : List Char) (p q : Char) (hp : brkChar p = false)
    (hq : brkChar q = false) : breaks p l = breaks q l := by
  cases l with
  | nil => rfl
  | cons x xs =>
    show (if brkChar p && x = ' ' then 1 else 0) + breaks x xs =
      (if brkChar q && x = ' ' then 1 else 0) + breaks x xs
    rw [hp, hq]

/-- Whitespace characters are not sentence breaks. -/
theorem ws_not_brk (c : Char) (h : isWsChar c = true) : brkChar c = false := by
  by_cases h1 : c = '.'
  · subst h1; exact absurd h (by decide)
  by_cases h2 : c = '!'
  · subst h2; exact absurd h (by decide)
  by_cases h3 : c = '?'
  · subst h3; exact absurd h (by decide)
  unfold brkChar
  simp [h1, h2, h3]

theorem breaks_dropWhileWs_le (l : List Char) (p : Char) (hp : brkChar p = false) :
    breaks p (l.dropWhile isWsChar) ≤ breaks p l := by
  induction l generalizing p with
  | nil => exact Nat.le_refl _
  | cons x xs ih =>
    by_cases hx : isWsChar x = true
    · rw [List.dropWhile_cons_of_pos hx]
      have hbx : brkChar x = false := ws_not_brk x hx
      calc breaks p (xs.dropWhile isWsChar) ≤ breaks p xs := ih p hp
        _ = breaks x xs := breaks_nonbrk_eq xs p x hp hbx
        _ ≤ (if brkChar p && x = ' ' then 1 else 0) + breaks x xs := Nat.le_add_left _ _
    · rw [List.dropWhile_cons_of_neg hx]

theorem breaks_stripTrail_le (l : List Char) (p : Char) (q : Char → Bool) :
    breaks p (stripTrailL q l) ≤ breaks p l := by
  induction l generalizing p with
  | nil => exact Nat.le_refl _
  | cons x xs ih =>
    unfold stripTrailL
    by_cases hcond : ((stripTrailL q xs).isEmpty && q x) = true
    · rw [if_pos hcond]
      exact Nat.zero_le _
    · rw [if_neg hcond]
      show (if brkChar p && x = ' ' then 1 else 0) + breaks x (stripTrailL q xs) ≤
        (if brkChar p && x = ' ' then 1 else 0) + breaks x xs
      exact Nat.add_le_add_left (ih x) _

theorem breaks_strip_le (l : List Char) (p : Char) (hp : brkChar p = false) :
    breaks p (stripSetL isWsChar l) ≤ breaks p l := by
  unfold stripSetL
  calc breaks p (stripTrailL isWsChar (l.dropWhile isWsChar))
      ≤ breaks p (l.dropWhile isWsChar) := breaks_stripTrail_le _ p isWsChar
    _ ≤ breaks p l := breaks_dropWhileWs_le l p hp

/-- The two-sentence cap: the sentence split of `_limit_sentences(s, 2)`
has at most two parts. -/
theorem limit_two_cap (s : String) :
    (ssplitL 'A' (limit_sentences s 2).data).length ≤ 2 := by
  unfold limit_sentences
  by_cases hempty : pyStrip ⟨collapseWs s.data⟩ = ""
  · rw [if_pos hempty]
    decide
  · rw [if_neg hempty]
    rcases hrec : ssplitL 'A' (pyStrip ⟨collapseWs s.data⟩).data with _ | ⟨h, t⟩
    · exact absurd hrec (ssplit_ne_nil _ _)
    · have hclean := ssplit_parts_clean _ 'A' h t hrec
      have hA : brkChar 'A' = false := rfl
      rcases t with _ | ⟨q, t'⟩
      · show (ssplitL 'A' (pyStrip ⟨joinL [' '] [h]⟩).data).length ≤ 2
        rw [ssplit_length]
        rw [show (pyStrip ⟨joinL [' '] [h]⟩).data = stripSetL isWsChar h from rfl]
        have hb : breaks 'A' (stripSetL isWsChar h) ≤ breaks 'A' h :=
          breaks_strip_le h 'A' hA
        rw [hclean.1] at hb
        omega
      · show (ssplitL 'A' (pyStrip ⟨joinL [' '] (List.take 2 (h :: q :: t'))⟩).data).length ≤ 2
        rw [show List.take 2 (h :: q :: t') = [h, q] from rfl]
        have hjoin : joinL [' '] [h, q] = h ++ (' ' :: q) := by
          show h ++ [' '] ++ joinL [' '] [q] = h ++ (' ' :: q)
          rw [List.append_assoc]
          rfl
        rw [ssplit_length, hjoin]
        rw [show (pyStrip ⟨h ++ (' ' :: q)⟩).data = stripSetL isWsChar (h ++ (' ' :: q))
          from rfl]
        have hq0 : breaks ' ' q = 0 := hclean.2 q (List.mem_cons_self _ _)
        have hb2 : breaks 'A' (h ++ (' ' :: q)) ≤ 1 := by
          rw [breaks_append h 'A' (' ' :: q)]
          show breaks 'A' h + ((if brkChar (h.getLastD 'A') && (' ' = ' ' : Bool) then 1
            else 0) + breaks ' ' q) ≤ 1
          rw [hclean.1, hq0]
          split <;> omega
        have hb : breaks 'A' (stripSetL isWsChar (h ++ (' ' :: q))) ≤
            breaks 'A' (h ++ (' ' :: q)) := breaks_strip_le _ 'A' hA
        omega

/-! ## Claims C9 and C10 -/

/-- The three possible shapes of a sanitizer result: the fallback, the bare
core, or the core with the evidence-count remark. -/
theorem sanitize_cases (t : String) (n : Nat) :
    sanitize_for_tts t n = "Done." ∨
    sanitize_for_tts t n = tts_core t ∨
    sanitize_for_tts t n = tts_core t ++ ". I attached " ++ natRepr n ++ " sources." := by
  unfold sanitize_for_tts
  dsimp only
  by_cases hn : 0 < n
  · rw [if_pos hn]
    by_cases hsrc : containsSub (pyLower (tts_core t)) "source" = true
    · rw [if_pos hsrc]
      split
      · exact Or.inl rfl
      · exact Or.inr (Or.inl rfl)
    · rw [if_neg hsrc]
      split
      · exact Or.inl rfl
      · exact Or.inr (Or.inr rfl)
  · rw [if_neg hn]
    split
    · exact Or.inl rfl
    · exact Or.inr (Or.inl rfl)

theorem digit_not_bracket (c : Char) (h1 : 48 ≤ c.toNat) (h2 : c.toNat ≤ 57) :
    isBracketChar c = false := by
  by_cases e1 : c = '['
  · subst e1; exact absurd h2 (by decide)
  by_cases e2 : c = ']'
  · subst e2; exact absurd h2 (by decide)
  by_cases e3 : c = Char.ofNat 123
  · subst e3; exact absurd h2 (by decide)
  by_cases e4 : c = Char.ofNat 125
  · subst e4; exact absurd h2 (by decide)
  unfold isBracketChar
  simp [e1, e2, e3, e4]

theorem sanitize_no_brackets (t : String) (n : Nat) (c : Char)
    (h : c ∈ (sanitize_for_tts t n).data) : isBracketChar c = false := by
  rcases sanitize_cases t n with he | he | he <;> rw [he] at h
  · exact (by decide : ∀ c ∈ ("Done." : String).data, isBracketChar c = false) c h
  · exact tts_core_no_brackets t c h
  · rw [String.data_append, String.data_append, String.data_append] at h
    rcases List.mem_append.mp h with h2 | h2
    · rcases List.mem_append.mp h2 with h3 | h3
      · rcases List.mem_append.mp h3 with h4 | h4
        · exact tts_core_no_brackets t c h4
        · exact (by decide :
            ∀ c ∈ (". I attached " : String).data, isBracketChar c = false) c h4
      · have := natReprAux_digits (n + 1) n c h3
        exact digit_not_bracket c this.1 this.2
    · exact (by decide : ∀ c ∈ (" sources." : String).data, isBracketChar c = false) c h2

theorem append_sources_ne (x : String) (n : Nat) :
    x ++ ". I attached " ++ natRepr n ++ " sources." ≠ "" := by
  intro h
  have hd := congrArg String.data h
  rw [String.data_append, String.data_append, String.data_append] at hd
  exact absurd (List.append_eq_nil.mp hd).2 (by decide)

/-- Claim C9, counterexample: the bracket-removal pass runs after the URL
pass, so deleting `[]` can splice a URL back together — the sayText for
the input `"htt[]p://x.com"` is `"http://x.com"`, which contains an
`http://` URL. -/
theorem C9_counterexample :
    sanitize_for_tts "htt[]p://x.com" 0 = "http://x.com" ∧
    containsSub (sanitize_for_tts "htt[]p://x.com" 0) "http://" = true := by
  refine ⟨by decide, by decide⟩

/-- Claim C9 (amended): the speech-safe sayText never contains a bracket
character; its core (the text before the evidence remark) is hard-capped
to at most two sentence parts; and when sources are attached and the core
does not already mention sources, the remark `". I attached N sources."`
is appended.  URL- and hex-freedom do not hold in general: the
URL/hex-stripping passes run before bracket removal, which can splice
removed-bracket fragments into new URL- or hex-like text. -/
theorem C9_say_text_sanitized (t : String) (n : Nat) :
    (∀ c ∈ (sanitize_for_tts t n).data, isBracketChar c = false) ∧
    (ssplitL 'A' (tts_core t).data).length ≤ 2 ∧
    (0 < n → containsSub (pyLower (tts_core t)) "source" = false →
      sanitize_for_tts t n = tts_core t ++ ". I attached " ++ natRepr n ++ " sources.") := by
  refine ⟨fun c hc => sanitize_no_brackets t n c hc, limit_two_cap _, ?_⟩
  intro hn hsrc
  unfold sanitize_for_tts
  dsimp only
  rw [if_pos hn,
    if_neg (show ¬containsSub (pyLower (tts_core t)) "source" = true by simp [hsrc]),
    if_neg (append_sources_ne (tts_core t) n)]

/-- Witness for C9: a concrete research reply with three sources. -/
theorem C9_say_text_sanitized_witness :
    (∀ c ∈ (sanitize_for_tts "I researched x." 3).data, isBracketChar c = false) ∧
    (ssplitL 'A' (tts_core "I researched x.").data).length ≤ 2 ∧
    sanitize_for_tts "I researched x." 3 =
      tts_core "I researched x." ++ ". I attached " ++ natRepr 3 ++ " sources." :=
  ⟨(C9_say_text_sanitized "I researched x." 3).1,
   (C9_say_text_sanitized "I researched x." 3).2.1,
   (C9_say_text_sanitized "I researched x." 3).2.2 (by decide) (by decide)⟩

theorem ite_done_ne (s : String) : (if s = "" then "Done." else s) ≠ "" := by
  split
  next => decide
  next h => exact h

/-- Claim C10, counterexample: when stripping reduces the text to nothing
but sources are attached, the sanitizer returns the evidence remark, not
the literal `"Done."` fallback (the result is still non-empty). -/
theorem C10_counterexample :
    tts_core "[]" = "" ∧
    sanitize_for_tts "[]" 2 = ". I attached 2 sources." ∧
    sanitize_for_tts "[]" 2 ≠ "Done." := by
  refine ⟨by decide, by decide, by decide⟩

/-- Claim C10 (amended): the sanitizer always returns a non-empty string;
when stripping reduces the text to nothing it returns `"Done."` provided
no sources are attached (with sources it returns the evidence remark);
hence every contract built by `make_response` has a non-empty sayText. -/
theorem C10_sanitizer_nonempty (t : String) (n : Nat) :
    sanitize_for_tts t n ≠ "" ∧
    (tts_core t = "" → n = 0 → sanitize_for_tts t n = "Done.") ∧
    (∀ (env : Option String) (a : MakeArgs), (make_response env a).say_text ≠ "") := by
  refine ⟨ite_done_ne _, ?_, fun env a => ite_done_ne _⟩
  intro h0 hn
  subst hn
  unfold sanitize_for_tts
  simp [h0]

/-- Witness for C10: the empty input with no sources. -/
theorem C10_sanitizer_nonempty_witness :
    sanitize_for_tts "" 0 = "Done." ∧ sanitize_for_tts "" 0 ≠ "" :=
  ⟨(C10_sanitizer_nonempty "" 0).2.1 (by decide) rfl, (C10_sanitizer_nonempty "" 0).1⟩

/-! ## Claim C7 -/

theorem context_refresh_artifacts (st : ConvState) (sess : WfSession) :
    (core_context_refresh st sess).artifacts = sess.artifacts := by
  unfold core_context_refresh
  split <;> rfl

theorem context_refresh_research (st : ConvState) (sess : WfSession) :
    (core_context_refresh st sess).last_research = sess.last_research := by
  unfold core_context_refresh
  split <;> rfl

theorem export_guard_resp_facts (env : Option String) :
    (export_guard_resp env).meta.intent = "export" ∧
    (export_guard_resp env).show_text = "What should I research first?" := by
  unfold export_guard_resp
  rw [make_response_none_verbosity env _ rfl]
  rcases get_verbosity_cases env with h | h | h <;> rw [h] <;> exact ⟨by decide, by decide⟩

/-- Claim C7, counterexample: `"help me export that to word"` satisfies the
claim's trigger (export target `word` plus the backward cue `"that"`) on a
session with empty `lastResearch`, yet the core answers from the earlier
`"help" in cmd` branch — intent `help`, not the `"What should I research
first?"` export prompt. -/
theorem C7_counterexample :
    (resolve_export_target (core_cmd "help me export that to word")).isSome = true ∧
    export_ref_cue (core_cmd "help me export that to word") = true ∧
    ({} : WfSession).last_research = none ∧
    (core_pure_step none false state_goal_word false {} "help me export that to word").map
      (fun rs => rs.1.meta.intent) = some "help" ∧
    (core_pure_step none false state_goal_word false {} "help me export that to word").map
      (fun rs => rs.1.show_text) ≠ some "What should I research first?" := by
  refine ⟨by decide, by decide, rfl, by decide, by decide⟩

/-- Claim C7 (amended): an utterance carrying an export target and a
backward-reference cue, on a session with empty `lastResearch`, returns
the `"What should I research first?"` prompt with intent `export` and
leaves `artifacts` and `lastResearch` unchanged — provided no earlier
branch of the core's dispatch chain intercepts the utterance (cutoff,
research/plan classification, the gmail/youtube/new-tab shortcuts,
greeting/help/identity, workflow clarification, the open/minimize/learn
keyword handlers); the selected branch is the export guard, which returns
before any export or file-generation call. -/
theorem C7_export_guard (env : Option String) (active : Bool) (st : ConvState)
    (sess : WfSession) (text : String)
    (h_research : sess.last_research = none)
    (h_target : (resolve_export_target (core_cmd text)).isSome = true)
    (h_cue : export_ref_cue (core_cmd text) = true)
    (h_cut : looks_cutoff text = false)
    (h1 : is_research_request (core_cmd text) = false)
    (h2 : (is_project_analysis_request (core_cmd text) && active) = false)
    (h3 : containsSub (core_cmd text) "open gmail" = false)
    (h4 : containsSub (core_cmd text) "summarise the last email" = false)
    (h5 : containsSub (core_cmd text) "summarize the last email" = false)
    (h6 : containsSub (core_cmd text) "read last email" = false)
    (h7 : containsSub (core_cmd text) "open youtube" = false)
    (h8 : containsSub (core_cmd text) "open a new tab" = false)
    (h9 : ¬(pyStrip (core_cmd text) = "new tab"))
    (h10 : containsSub (core_cmd text) "open gmail setup guide" = false)
    (h11 : ¬(core_cmd text = "skip gmail"))
    (h12 : containsSub (core_cmd text) "specify country for research" = false)
    (h14 : is_greeting (core_cmd text) = false)
    (h15 : containsSub (core_cmd text) "help" = false)
    (h16 : containsSub (core_cmd text) "what can you do" = false)
    (h17 : containsSub (core_cmd text) "what are you" = false)
    (h18 : containsSub (core_cmd text) "who are you" = false)
    (h19 : ((needs_workflow_clarification (core_cmd text)
             || (containsSub (core_cmd text) "workflow"
                 && (containsSub (core_cmd text) "create" || containsSub (core_cmd text) "make"
                     || containsSub (core_cmd text) "build")))
            && !(missing_questions st).isEmpty) = false)
    (h20 : (containsSub (core_cmd text) "open"
            && (containsSub (core_cmd text) "youtube" || containsSub (core_cmd text) "note"
                || containsSub (core_cmd text) "notepad" || containsSub (core_cmd text) "word"
                || containsSub (core_cmd text) "excel" || containsSub (core_cmd text) "url"
                || containsSub (core_cmd text) "browser"
                || containsSub (core_cmd text) "google")) = false)
    (h21 : (containsSub (core_cmd text) "minimize"
            || containsSub (core_cmd text) "hide windows") = false)
    (h22 : (containsSub (core_cmd text) "learn"
            && containsSub (core_cmd text) "youtube") = false) :
    core_branch active st false false text = CoreBranch.exportNoResearch ∧
    core_pure_step env active st false sess text =
      some (export_guard_resp env, core_context_refresh st sess) ∧
    (core_context_refresh st sess).artifacts = sess.artifacts ∧
    (core_context_refresh st sess).last_research = sess.last_research ∧
    (export_guard_resp env).meta.intent = "export" ∧
    (export_guard_resp env).show_text = "What should I research first?" := by
  simp only [core_cmd] at h_target h_cue h1 h2 h3 h4 h5 h6 h7 h8 h9 h10 h11 h12
  simp only [core_cmd] at h14 h15 h16 h17 h18 h19 h20 h21 h22
  have hclass : classify_intent active (pyLower (pyStrip text)) = "export_ref" := by
    unfold classify_intent
    simp [h1, h2, h3, h4, h5, h6, h7, h8, h9, h_target]
  have hbranch : core_branch active st false false text = CoreBranch.exportNoResearch := by
    unfold core_branch
    simp [h_cut, hclass, h10, h11, h12, h14, h15, h16, h17, h18, h19, h20, h21, h22,
      h_target, h_cue]
  refine ⟨hbranch, ?_, context_refresh_artifacts st sess,
    context_refresh_research st sess, (export_guard_resp_facts env).1,
    (export_guard_resp_facts env).2⟩
  unfold core_pure_step
  rw [h_research]
  rw [show (none : Option ResearchObj).isSome = false from rfl]
  rw [hbranch]
  rfl

/-- Witness for C7: `"export that to word"` on a fresh session and empty
state. -/
theorem C7_export_guard_witness :
    core_branch false {} false false "export that to word" = CoreBranch.exportNoResearch ∧
    core_pure_step none false {} false {} "export that to word" =
      some (export_guard_resp none, core_context_refresh {} {}) ∧
    (core_context_refresh {} ({} : WfSession)).artifacts = ({} : WfSession).artifacts ∧
    (core_context_refresh {} ({} : WfSession)).last_research = ({} : WfSession).last_research ∧
    (export_guard_resp none).meta.intent = "export" ∧
    (export_guard_resp none).show_text = "What should I research first?" :=
  C7_export_guard none false {} {} "export that to word" rfl (by decide) (by decide)
    (by decide) (by decide) (by decide) (by decide) (by decide) (by decide) (by decide)
    (by decide) (by decide) (by decide) (by decide) (by decide) (by decide) (by decide)
    (by decide) (by decide) (by decide) (by decide) (by decide) (by decide) (by decide)
    (by decide)

/-! ## Claim C2 -/

theorem stripTrail_eq_nil_forall (p : Char → Bool) :
    ∀ l : List Char, stripTrailL p l = [] → ∀ c ∈ l, p c = true := by
  intro l
  induction l with
  | nil => intro _ c hc; cases hc
  | cons x xs ih =>
    intro h c hc
    unfold stripTrailL at h
    by_cases hcond : ((stripTrailL p xs).isEmpty && p x) = true
    · rcases List.mem_cons.mp hc with rfl | h2
      · exact (Bool.and_eq_true_iff.mp hcond).2
      · exact ih (List.isEmpty_iff.mp (Bool.and_eq_true_iff.mp hcond).1) c h2
    · rw [if_neg hcond] at h
      cases h

theorem mem_dropWhile_of_not (p : Char → Bool) (l : List Char) (c : Char)
    (h : c ∈ l) (hp : p c = false) : c ∈ l.dropWhile p := by
  induction l with
  | nil => cases h
  | cons x xs ih =>
    by_cases hx : p x = true
    · rw [List.dropWhile_cons_of_pos hx]
      rcases List.mem_cons.mp h with rfl | h2
      · rw [hp] at hx; cases hx
      · exact ih h2
    · rw [List.dropWhile_cons_of_neg hx]
      exact h

/-- A list containing a character outside the strip set does not strip to
nothing. -/
theorem stripSet_ne_nil (p : Char → Bool) (l : List Char) (c : Char)
    (hc : c ∈ l) (hcp : p c = false) : stripSetL p l ≠ [] := by
  intro h
  unfold stripSetL at h
  have hmem := mem_dropWhile_of_not p l c hc hcp
  have := stripTrail_eq_nil_forall p (l.dropWhile p) h c hmem
  rw [hcp] at this
  cases this

/-- A displayed text that ends in `"?"` has a non-empty stripped last
line (it still contains the `'?'`). -/
theorem question_line_ne_empty (s : String) (h : endsWith s "?" = true) :
    pyStrip ⟨lastLineL s.data⟩ ≠ "" := by
  intro hempty
  have hdata : stripSetL isWsChar (lastLineL s.data) = [] := congrArg String.data hempty
  have hq : Char.ofNat 63 ∈ lastLineL s.data := by
    unfold endsWith at h
    rw [show ("?" : String).data.reverse = ['?'] from rfl] at h
    rcases hrev : s.data.reverse with _ | ⟨a, t⟩
    · rw [hrev] at h
      cases h
    · rw [hrev] at h
      have ha : a = '?' := by
        simp only [startsWithL, Bool.and_eq_true_iff, decide_eq_true_eq] at h
        exact h.1
      unfold lastLineL
      rw [hrev, ha]
      have : ('?' : Char) ∈ List.takeWhile (fun c => decide (c ≠ '\n')) ('?' :: t) := by
        rw [List.takeWhile_cons_of_pos (by decide)]
        exact List.mem_cons_self _ _
      exact List.mem_reverse.mpr this
  exact stripSet_ne_nil isWsChar (lastLineL s.data) (Char.ofNat 63) hq (by decide) hdata

/-- A string that does not strip to empty is itself non-empty. -/
theorem ne_empty_of_strip_ne (s : String) (h : pyStrip s ≠ "") : s ≠ "" := by
  intro hs
  subst hs
  exact h rfl

/-- Claim C2, counterexample: the turn `"research ."` reaches the
insufficient-sources reply whose first action command is `"research "`
(trailing space, the f-string rendered with an empty topic); the derived
pending action's `defaultCommand` is the stripped `"research"`, not the
first action's command `"research "`. -/
theorem C2_counterexample :
    low_source_resp.actions ≠ [] ∧
    (low_source_resp.actions.map (fun a => a.command)).head? = some "research " ∧
    (((finalize_response {} low_source_resp []).2).pending.map
      (fun pa => pa.default_command)) = some "research" ∧
    ("research" : String) ≠ "research " := by
  refine ⟨by decide, by decide, by decide, by decide⟩

/-- Claim C2 (amended): after any turn's finalization, the session's
pending field is either `None` or a `PendingAction` with at least one
option — each option carrying a non-empty command — or a non-empty
question; and a created `PendingAction`'s `defaultCommand` is the first
action's command stripped of surrounding whitespace (option commands are
stripped the same way), or empty when the response has no actions.  The
hypothesis states what is true of every `make_response` call in the
source: every action command has a non-whitespace character. -/
theorem C2_pending_invariant (sess : WfSession) (resp : Resp) (upd : List (String × DebugVal))
    (hcmd : ∀ a ∈ resp.actions, pyStrip a.command ≠ "") :
    (((finalize_response sess resp upd).2).pending = none ∨
      ∃ pa, ((finalize_response sess resp upd).2).pending = some pa ∧
        ((pa.options ≠ [] ∧ ∀ o ∈ pa.options, o.command ≠ "") ∨ pa.question ≠ "")) ∧
    (∀ pa, ((finalize_response sess resp upd).2).pending = some pa →
      pa.default_command = (match resp.actions with
        | [] => ""
        | a :: _ => pyStrip a.command)) := by
  rw [finalize_pending]
  have hfilter : resp.actions.filter (fun a => a.command != "") = resp.actions :=
    List.filter_eq_self.mpr
      (fun a ha => bne_iff_ne.mpr (ne_empty_of_strip_ne a.command (hcmd a ha)))
  have hopt : ∀ o ∈ resp.actions.map
      (fun a => (⟨pyStrip a.label, pyStrip a.command⟩ : OptionItem)), o.command ≠ "" := by
    intro o ho
    rcases List.mem_map.mp ho with ⟨x, hx, rfl⟩
    show pyStrip x.command ≠ ""
    exact hcmd x hx
  simp only [pending_from_response]
  rw [hfilter]
  by_cases hq : endsWith (pyStrip resp.show_text) "?" = true
  · rw [if_pos hq]
    have hne := question_line_ne_empty (pyStrip resp.show_text) hq
    rw [if_neg (by simp [hne])]
    constructor
    · exact Or.inr ⟨_, rfl, Or.inr hne⟩
    · intro pa hpa
      injection hpa with hpa2
      subst hpa2
      rfl
  · rw [if_neg hq]
    rcases hact : resp.actions with _ | ⟨a, as⟩
    · rw [if_pos (by simp)]
      exact ⟨Or.inl rfl, fun pa hpa => by cases hpa⟩
    · rw [if_neg (by simp)]
      constructor
      · refine Or.inr ⟨_, rfl, Or.inl ⟨by simp, ?_⟩⟩
        rw [← hact]
        exact hopt
      · intro pa hpa
        injection hpa with hpa2
        subst hpa2
        rfl

/-- Witness for C2: a concrete greeting-like response with one action. -/
theorem C2_pending_invariant_witness :
    ((((finalize_response {} c2_resp []).2).pending = none ∨
      ∃ pa, (((finalize_response {} c2_resp []).2)).pending = some pa ∧
        ((pa.options ≠ [] ∧ ∀ o ∈ pa.options, o.command ≠ "") ∨ pa.question ≠ "")) ∧
    (∀ pa, (((finalize_response {} c2_resp []).2)).pending = some pa →
      pa.default_command = (match c2_resp.actions with
        | [] => ""
        | a :: _ => pyStrip a.command))) :=
  C2_pending_invariant {} c2_resp [] (by decide)

/-! ## Claim C3 -/

/-- Claim C3, counterexample: label matches do not take priority over
command-containment matches across all options.  With options
`[{label:"Alpha", command:"yes go"}, {label:"yes", command:"run b"}]`, the
reply `"yes"` exactly equals the second option's label, so the claimed
priority would resolve to `"run b"`; the source scans options in order and
tests each option's label and then its command before moving on, so the
first option's command containment (`"yes" ⊆ "yes go"`) wins and the
result is `"yes go"`. -/
theorem C3_counterexample :
    mixed_pending.options.get? 1 = some ⟨"yes", "run b"⟩ ∧
    match_pending_option "yes" mixed_pending = some "yes go" ∧
    (some "yes go" : Option String) ≠ some "run b" := by
  refine ⟨by decide, by decide, by decide⟩

/-- Claim C3 (amended): an explicit `option N` reference (1-based, in
range, with a non-empty command) resolves to the Nth option's command with
priority over every label or command match; otherwise options are scanned
in listed order, each option's label tests (exact equality, containment
either way, token-in-label) being tried before that option's
command-containment test, and the first option with either kind of match
wins — so an earlier option's command match beats a later option's label
match.  On the spec's Botswana / United States example, `"option 2"` and
`"united states"` both resolve to the second option's command. -/
theorem C3_option_resolution (cmd : String) (p : PendingAction) (n : Nat) (o : OptionItem)
    (h1 : findOptionN none (pyLower (pyStrip cmd)).data = some n)
    (h2 : 1 ≤ n)
    (h3 : p.options.get? (n - 1) = some o)
    (h4 : pyStrip o.command ≠ "") :
    match_pending_option cmd p = some (pyStrip o.command) ∧
    match_pending_option "option 2" botswana_pending = some "research X in United States" ∧
    match_pending_option "united states" botswana_pending =
      some "research X in United States" := by
  refine ⟨?_, by decide, by decide⟩
  simp only [match_pending_option]
  rw [h1]
  have hlt : n - 1 < p.options.length := (List.get?_eq_some.mp h3).1
  have hle : n ≤ p.options.length := by omega
  dsimp only
  rw [if_pos ⟨h2, hle⟩, h3]
  simp [strOrNone, h4]

/-- Witness for C3: `"option 1"` on the Botswana pending action resolves by
index to the first option's command. -/
theorem C3_option_resolution_witness :
    match_pending_option "option 1" botswana_pending = some "research X in Botswana" ∧
    match_pending_option "option 2" botswana_pending = some "research X in United States" ∧
    match_pending_option "united states" botswana_pending =
      some "research X in United States" :=
  C3_option_resolution "option 1" botswana_pending 1 ⟨"Botswana", "research X in Botswana"⟩
    (by decide) (by decide) (by decide) (by decide)

/-! ## Claim C8 -/

/-- Claim C8, counterexample: normalizing `"contrys"` records the
`contry->country` correction (the trigger test is a plain substring check)
although the word-bounded substitution does not fire, so the output still
contains the trigger; re-normalizing that output reports the same
correction again instead of an empty corrections list. -/
theorem C8_counterexample :
    normalize_stt_text "contrys" = ("contrys", ["contry->country"]) ∧
    (normalize_stt_text (normalize_stt_text "contrys").1).2 ≠ ([] : List String) := by
  refine ⟨by decide, by decide⟩

/-- Claim C8 (amended): normalization is idempotent — same text and an
empty corrections list — whenever its output no longer contains a
correction trigger (the substring `"contry"`, a word-bounded
`"export play"`, or AI context together with a word-bounded
`"rise of i"`).  When a trigger substring survives because the
word-bounded replacement did not fire (as at `"contrys"`), the text comes
back unchanged but the correction tag is reported again. -/
theorem C8_idempotent_without_triggers (s : String)
    (h1 : containsSub (pyLower (normalize_stt_text s).1) "contry" = false)
    (h2 : searchBoundedStr (pyLower (normalize_stt_text s).1) "export play" = false)
    (h3 : ai_context (pyLower (normalize_stt_text s).1) = false ∨
          searchBoundedStr (pyLower (normalize_stt_text s).1) "rise of i" = false) :
    normalize_stt_text (normalize_stt_text s).1 = ((normalize_stt_text s).1, []) := by
  generalize (normalize_stt_text s).1 = t at h1 h2 h3 ⊢
  unfold normalize_stt_text
  rcases h3 with h3 | h3 <;> simp [h1, h2, h3]

/-- Witness for C8: a trigger-free utterance is a fixpoint with no
corrections. -/
theorem C8_idempotent_without_triggers_witness :
    normalize_stt_text (normalize_stt_text "hello there").1 =
      ((normalize_stt_text "hello there").1, []) :=
  C8_idempotent_without_triggers "hello there" (by decide) (by decide) (Or.inl (by decide))

end Cavista
